import Mathlib

/-!
Verification development for the pyxero repository (`xero/manager.py` and
`tests/date_parse.py`).

The Python source is shallowly embedded:

* Python dicts are association lists (`List (String × PValue)`) with
  insertion-order iteration; Python tuples produced by `Manager.walk_dom`
  are `List DItem`; `xml.etree` elements are `Elem` values.
* Python code that can raise an exception on the inputs considered
  (`KeyError`, `AttributeError`, `IndexError`, malformed-literal
  constructor errors) is embedded with `Option`, `none` standing for an
  uncaught exception.
* Machine integers do not occur; Python ints are `Int`/`Nat`.
* External collaborators (`dateutil.parser.parse`, `urlparse.parse_qs`,
  `urllib.quote`, `uuid.UUID`, `decimal.Decimal`) are modelled at their
  interface, faithful to their documented behaviour on the value shapes
  this file evaluates them on.
-/

/-! ## Pluralization helpers (manager.py lines 14-20)

`isplural(word)` is `word[-1].lower() == 's'`; `singular(word)` strips one
trailing character when `isplural`.  On the empty string the Python code
raises `IndexError`; the claims only use nonempty words, and the embedding
returns `false` there. -/

def isplural (word : String) : Bool :=
  match word.data.getLast? with
  | some c => c.toLower = 's'
  | none => false

def singular (word : String) : String :=
  if isplural word then word.dropRight 1 else word

/-! ## Static field tables (manager.py lines 26-49) -/

def DATETIME_FIELDS : List String :=
  ["UpdatedDateUTC", "Updated", "FullyPaidOnDate", "DateTimeUTC", "CreatedDateUTC"]

def DATE_FIELDS : List String :=
  ["DueDate", "Date", "PaymentDate", "StartDate", "EndDate",
   "PeriodLockDate", "DateOfBirth", "OpeningBalanceDate"]

def BOOLEAN_FIELDS : List String :=
  ["IsSupplier", "IsCustomer", "IsDemoCompany", "PaysTax",
   "IsAuthorisedToApproveTimesheets", "IsAuthorisedToApproveLeave",
   "HasHELPDebt", "AustralianResidentForTaxPurposes",
   "TaxFreeThresholdClaimed", "HasSFSSDebt", "EligibleToReceiveLeaveLoading",
   "IsExemptFromTax", "IsExemptFromSuper"]

def DECIMAL_FIELDS : List String := ["Hours", "NumberOfUnit"]

def INTEGER_FIELDS : List String := ["FinancialYearEndDay", "FinancialYearEndMonth"]

def PLURAL_EXCEPTIONS : List (String × String) := [("Addresse", "Address")]

def NO_SEND_FIELDS : List String := ["UpdatedDateUTC"]

def GUID_FIELDS : List String := ["EmployeeID"]

/-! ## Scalar value model

`PyDatetime`/`PyDate` model `datetime.datetime`/`datetime.date` values
(naive, i.e. without timezone metadata, as everywhere in the source). -/

structure PyDatetime where
  year : Nat
  month : Nat
  day : Nat
  hour : Nat
  minute : Nat
  second : Nat
  microsecond : Nat
  deriving DecidableEq

structure PyDate where
  year : Nat
  month : Nat
  day : Nat
  deriving DecidableEq

/-- Python values as they flow through `Manager.convert_to_dict` /
`Manager.dict_to_xml`: strings, `Decimal` (kept as its literal text),
booleans, `datetime`/`date`, `UUID` (kept as its canonical hyphenated
lowercase text), ints, dicts (association lists in insertion order) and
lists. -/
inductive PValue where
  | str (s : String)
  | boolean (b : Bool)
  | decimal (s : String)
  | integer (n : Int)
  | guid (s : String)
  | datetime (d : PyDatetime)
  | date (d : PyDate)
  | map (m : List (String × PValue))
  | list (l : List PValue)

/-! ## String rendering of scalars (Python `str(...)`) -/

/-- Zero-padded decimal rendering of width 2. -/
def pad2 (n : Nat) : String :=
  if n < 10 then "0" ++ toString n else toString n

/-- Zero-padded decimal rendering of width 4. -/
def pad4 (n : Nat) : String :=
  if n < 10 then "000" ++ toString n
  else if n < 100 then "00" ++ toString n
  else if n < 1000 then "0" ++ toString n
  else toString n

/-- Zero-padded decimal rendering of width 6 (`datetime` microseconds). -/
def pad6 (n : Nat) : String :=
  if n < 10 then "00000" ++ toString n
  else if n < 100 then "0000" ++ toString n
  else if n < 1000 then "000" ++ toString n
  else if n < 10000 then "00" ++ toString n
  else if n < 100000 then "0" ++ toString n
  else toString n

/-- Python `str(datetime.date(...))`: `YYYY-MM-DD`. -/
def pyDateStr (d : PyDate) : String :=
  pad4 d.year ++ "-" ++ pad2 d.month ++ "-" ++ pad2 d.day

/-- Python `str(datetime.datetime(...))`: `YYYY-MM-DD HH:MM:SS[.ffffff]`,
the fractional part printed only when the microsecond field is nonzero. -/
def pyDatetimeStr (d : PyDatetime) : String :=
  pad4 d.year ++ "-" ++ pad2 d.month ++ "-" ++ pad2 d.day ++ " "
    ++ pad2 d.hour ++ ":" ++ pad2 d.minute ++ ":" ++ pad2 d.second
    ++ (if d.microsecond = 0 then "" else "." ++ pad6 d.microsecond)

/-- Python `datetime.isoformat()`: `YYYY-MM-DDTHH:MM:SS[.ffffff]`. -/
def pyDatetimeIso (d : PyDatetime) : String :=
  pad4 d.year ++ "-" ++ pad2 d.month ++ "-" ++ pad2 d.day ++ "T"
    ++ pad2 d.hour ++ ":" ++ pad2 d.minute ++ ":" ++ pad2 d.second
    ++ (if d.microsecond = 0 then "" else "." ++ pad6 d.microsecond)

/-- Python `str(...)` on the scalar values the manager passes to it.
`str` of a dict or list never happens on the code paths under
verification (the encoder recurses into those shapes instead); those
cases are given Python's delimiter characters so that the function stays
total. -/
def pyStr : PValue → String
  | .str s => s
  | .boolean b => if b then "True" else "False"
  | .decimal s => s
  | .integer n => toString n
  | .guid s => s
  | .datetime d => pyDatetimeStr d
  | .date d => pyDateStr d
  | .map _ => "\x7b...\x7d"
  | .list _ => "[...]"

/-- Python truthiness (`if kwargs[key]:`) for the value shapes above. -/
def pyTruthy : PValue → Bool
  | .str s => s ≠ ""
  | .boolean b => b
  | .decimal s => ¬(s = "0" ∨ s = "0.0")
  | .integer n => n ≠ 0
  | .guid _ => true
  | .datetime _ => true
  | .date _ => true
  | .map m => !m.isEmpty
  | .list l => !l.isEmpty

/-! ## Python string primitives

Re-implemented over `List Char` (Lean's `String.trim`, `splitOn`,
`replace`, `toLower`, `endsWith` mirror the same behaviour but are
opaque to kernel evaluation). -/

/-- Python `str` whitespace (`string.whitespace`). -/
def pyIsSpace (c : Char) : Bool :=
  c = ' ' || c = '\t' || c = '\n' || c = '\r' || c = '\x0b' || c = '\x0c'

/-- Python `s.strip()`. -/
def pyStrip (s : String) : String :=
  ⟨((s.data.dropWhile pyIsSpace).reverse.dropWhile pyIsSpace).reverse⟩

/-- Python `s.lower()`. -/
def pyToLower (s : String) : String :=
  ⟨s.data.map Char.toLower⟩

/-- Python `s.endswith(suffix)`. -/
def pyEndsWith (s suffix : String) : Bool :=
  s.data.drop (s.data.length - suffix.data.length) = suffix.data

/-! ## Tree model

`Elem` models an `xml.etree.ElementTree` element: a tag name, the leading
`.text` (set by `elm.text = ...` in the source; `.tail` is never used
there) and the child elements.  `minidom.parseString(tostring(e))` turns a
nonempty `.text` into a leading text child node, which is how `walk_dom`
traverses it. -/

inductive Elem where
  | mk (tagName : String) (text : Option String) (children : List Elem)

def Elem.tagName : Elem → String
  | .mk t _ _ => t

def Elem.text : Elem → Option String
  | .mk _ tx _ => tx

def Elem.children : Elem → List Elem
  | .mk _ _ c => c

def Elem.setText : Elem → String → Elem
  | .mk t _ c, s => .mk t (some s) c

def Elem.addChild : Elem → Elem → Elem
  | .mk t tx c, e => .mk t tx (c ++ [e])

/-- Item of the nested tuple built by `Manager.walk_dom` (manager.py lines
67-77): a tag name or stripped text (`DItem.s`), or a nested tuple
(`DItem.t`). -/
inductive DItem where
  | s (v : String)
  | t (l : List DItem)

/-! Embedding of `Manager.walk_dom` (manager.py lines 67-77): each child
node with a tag contributes the pair `(tagName, walk_dom(node))`; a text
node contributes its stripped data when nonempty.  A nonempty `.text`
of the `Elem` is its first child node after reparsing. -/
mutual
def walk_dom : Elem → List DItem
  | .mk _ text children =>
    (match text with
     | some s => if pyStrip s = "" then [] else [DItem.s (pyStrip s)]
     | none => []) ++ walk_children children
def walk_children : List Elem → List DItem
  | [] => []
  | c :: cs => DItem.s c.tagName :: DItem.t (walk_dom c) :: walk_children cs
end

/-- Embedding of `walk_dom(dom)` applied to the parsed *document* node,
whose only child is the root element (manager.py line 227-228). -/
def walk_document (root : Elem) : List DItem :=
  [DItem.s root.tagName, DItem.t (walk_dom root)]

/-! ## External scalar constructors consulted by the decoder -/

def digitVal (c : Char) : Nat := c.toNat - 48

def digitsToNat (l : List Char) : Nat :=
  l.foldl (fun n c => 10 * n + digitVal c) 0

def pyIsHexDigit (c : Char) : Bool :=
  c.isDigit || (('a' ≤ c && c ≤ 'f') || ('A' ≤ c && c ≤ 'F'))

/-- Models `decimal.Decimal(val)` on plain decimal literals
(`[sign] digits [. digits]`); the accepted literal is kept verbatim
(`str(Decimal(s)) = s` for the canonical literals produced by the
encoder).  Anything else raises in Python, hence `none`. -/
def pyDecimal (s : String) : Option PValue :=
  let l :=
    match s.data with
    | c :: rest => if c = '+' ∨ c = '-' then rest else s.data
    | [] => []
  match l.span Char.isDigit with
  | (ds, []) => if ds.isEmpty then none else some (.decimal s)
  | (ds, '.' :: fs) =>
    if (!ds.isEmpty || !fs.isEmpty) && fs.all Char.isDigit then some (.decimal s)
    else none
  | _ => none

/-- Canonical hyphenated form of 32 lowercase hex digits (8-4-4-4-12). -/
def uuidCanon (hx : List Char) : String :=
  String.mk (hx.take 8) ++ "-" ++ String.mk ((hx.drop 8).take 4) ++ "-"
    ++ String.mk ((hx.drop 12).take 4) ++ "-" ++ String.mk ((hx.drop 16).take 4)
    ++ "-" ++ String.mk (hx.drop 20)

/-- Models `uuid.UUID(val)`: hyphens are removed, the remaining 32 hex
digits are the value; `str` of the result is the canonical lowercase
hyphenated form. -/
def pyUUID (s : String) : Option PValue :=
  let hx := (s.data.filter (fun c => c ≠ '-')).map Char.toLower
  if hx.length = 32 && hx.all pyIsHexDigit then some (.guid (uuidCanon hx))
  else none

/-- Models Python `int(val)`: surrounding whitespace stripped, optional
sign, decimal digits. -/
def pyInt (s : String) : Option PValue :=
  match (pyStrip s).data with
  | [] => none
  | c :: rest =>
    if c = '+' ∨ c = '-' then
      if !rest.isEmpty && rest.all Char.isDigit then
        some (.integer (if c = '-' then -(digitsToNat rest : Int) else (digitsToNat rest : Int)))
      else none
    else
      if (c :: rest).all Char.isDigit then some (.integer (digitsToNat (c :: rest) : Int))
      else none

/-- Models the external `dateutil.parser.parse` on the literal shapes the
manager feeds it on the paths evaluated here: `YYYY-MM-DD`,
`YYYY-MM-DD HH:MM:SS[.ffffff]` and `YYYY-MM-DDTHH:MM:SS[.ffffff]` (the
shapes `str(datetime)`/`str(date)` and the wire format produce). -/
def parseMicro : List Char → Option Nat
  | [] => some 0
  | '.' :: a :: b :: c :: d :: e :: f :: [] =>
    if [a, b, c, d, e, f].all Char.isDigit then some (digitsToNat [a, b, c, d, e, f])
    else none
  | _ => none

def dateutil_parse (s : String) : Option PyDatetime :=
  match s.data with
  | y1 :: y2 :: y3 :: y4 :: '-' :: m1 :: m2 :: '-' :: d1 :: d2 :: rest =>
    if [y1, y2, y3, y4, m1, m2, d1, d2].all Char.isDigit then
      let y := digitsToNat [y1, y2, y3, y4]
      let mo := digitsToNat [m1, m2]
      let dy := digitsToNat [d1, d2]
      match rest with
      | [] => some ⟨y, mo, dy, 0, 0, 0, 0⟩
      | sep :: h1 :: h2 :: ':' :: n1 :: n2 :: ':' :: s1 :: s2 :: rest2 =>
        if (sep = ' ' ∨ sep = 'T') ∧ [h1, h2, n1, n2, s1, s2].all Char.isDigit then
          (parseMicro rest2).map fun us =>
            ⟨y, mo, dy, digitsToNat [h1, h2], digitsToNat [n1, n2],
             digitsToNat [s1, s2], us⟩
        else none
      | _ => none
    else none
  | _ => none

/-! ## Leaf coercion (manager.py lines 99-111) -/

/-- The value formatting applied to a sole text leaf, in source order:
`DECIMAL_FIELDS`, `BOOLEAN_FIELDS`, `DATETIME_FIELDS`, `DATE_FIELDS`,
`GUID_FIELDS` or an `ID` suffix, `INTEGER_FIELDS`, otherwise the raw
string. -/
def coerce_value (key : String) (val : String) : Option PValue :=
  if key ∈ DECIMAL_FIELDS then pyDecimal val
  else if key ∈ BOOLEAN_FIELDS then some (.boolean (pyToLower val = "true"))
  else if key ∈ DATETIME_FIELDS then (dateutil_parse val).map .datetime
  else if key ∈ DATE_FIELDS then
    (dateutil_parse val).map fun d => .date ⟨d.year, d.month, d.day⟩
  else if key ∈ GUID_FIELDS ∨ pyEndsWith key "ID" then pyUUID val
  else if key ∈ INTEGER_FIELDS then pyInt val
  else some (.str val)

/-! ## The decoder `Manager.convert_to_dict` (manager.py lines 79-136) -/

/-- Python dict assignment `out[key] = data`: replace in place when the
key exists, else append (insertion order). -/
def dict_set : List (String × PValue) → String → PValue → List (String × PValue)
  | [], key, v => [(key, v)]
  | (k0, v0) :: rest, key, v =>
    if k0 = key then (k0, v) :: rest else (k0, v0) :: dict_set rest key v

/-- Plural collapse in the zip loop (manager.py lines 119-121):
`isinstance(data, dict) and isplural(key) and [singular(key)] == data.keys()`
turns the dict into the one-element list of its sole value. -/
def collapse_deep (key : String) (data : PValue) : PValue :=
  match data with
  | .map [(k, v)] =>
    if isplural key ∧ k = singular key then .list [v] else .map [(k, v)]
  | d => d

/-- Plural collapse in the two-element branch (manager.py lines 128-133).
Unlike lines 119-121 there is no `isinstance(data, dict)` guard: when the
key is plural and the data has no `.keys()` Python raises
`AttributeError`, embedded as `none`. -/
def collapse_two (key : String) (data : PValue) : Option PValue :=
  if isplural key then
    match data with
    | .map [(k, v)] => some (if k = singular key then .list [v] else .map [(k, v)])
    | .map m => some (.map m)
    | _ => none
  else some data

/-! Embedding of `Manager.convert_to_dict`.  The recursion of the source
is on values extracted by `zip`/comprehensions, which is not structural;
`cdict` therefore carries a fuel argument, decremented on every recursive
call, and `convert_to_dict` below supplies `dlistFuel`, an upper bound on
the recursion depth, so the fuel never runs out on `walk_dom` output.
`none` models an uncaught Python exception (empty tuple indexing,
`AttributeError`, malformed scalar literals) and, in `cpairs`, the
tuple-valued `data[0]` shapes that never arise from `walk_dom` output.

* `cdict` is the body of `convert_to_dict`;
* `cpairs` is the `for key, data in zip(keys, lists)` loop, `out` the
  dict being built;
* `clist` is the collection comprehension of line 88. -/
mutual
def cdict : Nat → List DItem → Option PValue
  | 0, _ => none
  | fuel + 1, deep_list =>
    if deep_list.length > 2 then
      let lists := deep_list.filterMap fun i =>
        match i with | DItem.t l => some l | DItem.s _ => none
      let keys := deep_list.filterMap fun i =>
        match i with | DItem.s v => some v | DItem.t _ => none
      if keys.length > 1 ∧ keys.dedup.length = 1 then
        (clist fuel lists).map PValue.list
      else
        cpairs fuel (keys.zip lists) []
    else if deep_list.length = 2 then
      match deep_list with
      | [DItem.s key, DItem.t rest] =>
        (cdict fuel rest).bind fun data =>
          (collapse_two key data).map fun d => PValue.map [(key, d)]
      | _ => none
    else
      match deep_list with
      | [DItem.s v] => some (PValue.str v)
      | _ => none
def cpairs : Nat → List (String × List DItem) → List (String × PValue) → Option PValue
  | 0, _, _ => none
  | _ + 1, [], out => some (PValue.map out)
  | fuel + 1, (key, data) :: rest, out =>
    if data.isEmpty then cpairs fuel rest out
    else if data.length = 1 then
      match data with
      | [DItem.s val] =>
        (coerce_value key val).bind fun v => cpairs fuel rest (dict_set out key v)
      | _ => none
    else
      (cdict fuel data).bind fun d =>
        cpairs fuel rest (dict_set out key (collapse_deep key d))
def clist : Nat → List (List DItem) → Option (List PValue)
  | 0, _ => none
  | _ + 1, [] => some []
  | fuel + 1, d :: ds =>
    (cdict fuel d).bind fun v => (clist fuel ds).map fun vs => v :: vs
end

/-! Fuel bound: one unit per `DItem` node plus one per list, which
dominates the recursion depth of `cdict` on its input. -/
mutual
def ditemFuel : DItem → Nat
  | .s _ => 1
  | .t l => 1 + dlistFuel l
def dlistFuel : List DItem → Nat
  | [] => 1
  | x :: xs => 1 + ditemFuel x + dlistFuel xs
end

def convert_to_dict (deep_list : List DItem) : Option PValue :=
  cdict (dlistFuel deep_list) deep_list

/-! ## The encoder `Manager.dict_to_xml` (manager.py lines 138-183) -/

/-! Embedding of `Manager.dict_to_xml`.  `dxml_fields` is the
`for key in data.keys()` loop; `dxml_plural` the plural-list branch
(lines 164-171), whose `Decimal` items are pre-converted with `str`
(lines 169-170); `dxml_items` the non-plural list branch (lines 175-177),
which keeps mutating the *same* element. -/
mutual
def dict_to_xml (root_elm : Elem) (data : PValue) : Elem :=
  match data with
  | .map m => dxml_fields root_elm m
  | d => root_elm.setText (pyStr d)
def dxml_fields (root_elm : Elem) : List (String × PValue) → Elem
  | [] => root_elm
  | (key, sub_data) :: rest =>
    if key ∈ NO_SEND_FIELDS then dxml_fields root_elm rest
    else
      let elm : Elem :=
        match sub_data with
        | .map m => dxml_fields (.mk key none []) m
        | .list l =>
          if key.data.getLast? = some 's' then
            dxml_plural (.mk key none [])
              ((PLURAL_EXCEPTIONS.lookup (key.dropRight 1)).getD (key.dropRight 1)) l
          else
            dxml_items (.mk key none []) l
        | d => Elem.mk key (some (pyStr d)) []
      dxml_fields (root_elm.addChild elm) rest
def dxml_plural (elm : Elem) (plural_name : String) : List PValue → Elem
  | [] => elm
  | d :: ds =>
    let child : Elem :=
      match d with
      | .map m => dxml_fields (.mk plural_name none []) m
      | .decimal s => Elem.mk plural_name (some s) []
      | x => Elem.mk plural_name (some (pyStr x)) []
    dxml_plural (elm.addChild child) plural_name ds
def dxml_items (elm : Elem) : List PValue → Elem
  | [] => elm
  | d :: ds => dxml_items (dict_to_xml elm d) ds
end

/-! ## Date/time literal parser

Modelled from the spec: `parse_date` is imported from `xero.manager` by
`src/tests/date_parse.py` but is not present under `src/`; sections 4.1
and 8 of the spec define it.  Two grammars are matched against the entire
input: `YYYY-MM-DDTHH:MM:SS` (a calendar date when all three time fields
are zero, else a date-time; the spec's optional "force datetime" flag is
left at its unset default, as in the tests) and
`/Date(<millis>[<sign><HH><MM>])/` (epoch milliseconds shifted by the
signed offset, yielding a naive date-time).  Anything else is `none`. -/

inductive PDResult where
  | date (d : PyDate)
  | datetime (d : PyDatetime)
  deriving DecidableEq

/-- Civil date from days since 1970-01-01 (Howard Hinnant's
`civil_from_days`, with floor division). -/
def civilFromDays (z0 : Int) : Int × Nat × Nat :=
  let z := z0 + 719468
  let era := z.ediv 146097
  let doe := (z - era * 146097).toNat
  let yoe := (doe - doe / 1460 + doe / 36524 - doe / 146096) / 365
  let doy := doe - (365 * yoe + yoe / 4 - yoe / 100)
  let mp := (5 * doy + 2) / 153
  let d := doy - (153 * mp + 2) / 5 + 1
  let m := if mp < 10 then mp + 3 else mp - 9
  (era * 400 + yoe + (if m ≤ 2 then 1 else 0), m, d)

/-- Naive date-time from a (possibly offset-shifted) epoch-millisecond
value. -/
def msdt (totalMs : Int) : PyDatetime :=
  let day := totalMs.ediv 86400000
  let msInDay := (totalMs.emod 86400000).toNat
  let ymd := civilFromDays day
  { year := ymd.1.toNat
    month := ymd.2.1
    day := ymd.2.2
    hour := msInDay / 3600000
    minute := msInDay % 3600000 / 60000
    second := msInDay % 60000 / 1000
    microsecond := msInDay % 1000 * 1000 }

/-- Leading-pattern matcher: `stripHead p l` is the remainder of `l`
after the exact prefix `p`, or `none`. -/
def stripHead : List Char → List Char → Option (List Char)
  | [], l => some l
  | _ :: _, [] => none
  | p :: ps, c :: cs => if p = c then stripHead ps cs else none

/-- The ISO grammar `YYYY-MM-DDTHH:MM:SS`, matched against the whole
input. -/
def parse_iso_list (l : List Char) : Option PDResult :=
  match l with
  | [y1, y2, y3, y4, a1, m1, m2, a2, d1, d2, a3, h1, h2, a4, n1, n2, a5, x1, x2] =>
    if [y1, y2, y3, y4, m1, m2, d1, d2, h1, h2, n1, n2, x1, x2].all Char.isDigit
        ∧ a1 = '-' ∧ a2 = '-' ∧ a3 = 'T' ∧ a4 = ':' ∧ a5 = ':' then
      let y := digitsToNat [y1, y2, y3, y4]
      let mo := digitsToNat [m1, m2]
      let dy := digitsToNat [d1, d2]
      let hr := digitsToNat [h1, h2]
      let mi := digitsToNat [n1, n2]
      let se := digitsToNat [x1, x2]
      if hr = 0 ∧ mi = 0 ∧ se = 0 then some (.date ⟨y, mo, dy⟩)
      else some (.datetime ⟨y, mo, dy, hr, mi, se, 0⟩)
    else none
  | _ => none

def parse_iso (s : String) : Option PDResult :=
  parse_iso_list s.data

def msLitHead : List Char := ['/', 'D', 'a', 't', 'e', '(']

/-- The epoch-millisecond grammar `/Date(<millis>[<sign><HH><MM>])/`,
matched against the whole input. -/
def parse_ms_list (l : List Char) : Option PDResult :=
  match stripHead msLitHead l with
  | none => none
  | some rest =>
    let ds := rest.takeWhile Char.isDigit
    let tl := rest.dropWhile Char.isDigit
    if ds.isEmpty then none
    else
      match tl with
      | [')', '/'] => some (.datetime (msdt (digitsToNat ds : Int)))
      | [sg, o1, o2, o3, o4, ')', '/'] =>
        if (sg = '+' ∨ sg = '-') ∧ [o1, o2, o3, o4].all Char.isDigit then
          let offMin : Int := (digitsToNat [o1, o2] * 60 + digitsToNat [o3, o4] : Nat)
          let offMs : Int := (if sg = '+' then offMin else -offMin) * 60000
          some (.datetime (msdt ((digitsToNat ds : Int) + offMs)))
        else none
      | _ => none

def parse_ms (s : String) : Option PDResult :=
  parse_ms_list s.data

def parse_date (s : String) : Option PDResult :=
  match parse_iso s with
  | some r => some r
  | none => parse_ms s

/-! ## More Python string primitives for the filter generator -/

/-- Python `s.split(sep)` for a one-character separator. -/
def pySplitChar (sep : Char) : List Char → List (List Char)
  | [] => [[]]
  | c :: rest =>
    match pySplitChar sep rest with
    | [] => if c = sep then [[], []] else [[c]]
    | h :: t => if c = sep then [] :: h :: t else (c :: h) :: t

/-- Python `s.split(sep)` for a two-character separator `ab` (the
manager only splits on `"__"`). -/
def pySplit2 (a b : Char) : List Char → List (List Char)
  | [] => [[]]
  | [c] => [[c]]
  | c :: d :: rest =>
    if c = a ∧ d = b then [] :: pySplit2 a b rest
    else
      match pySplit2 a b (d :: rest) with
      | [] => [[c]]
      | h :: t => (c :: h) :: t

/-- Python `s.replace(a, b)` for one-character patterns. -/
def pyReplaceChar (a b : Char) (s : String) : String :=
  ⟨s.data.map fun c => if c = a then b else c⟩

/-- Python `s.split(sep, 1)` on `=`: the name/value split of a query
pair; `none` when there is no `=` at all. -/
def splitOnceEq : List Char → Option (List Char × List Char)
  | [] => none
  | '=' :: rest => some ([], rest)
  | c :: rest => (splitOnceEq rest).map fun p => (c :: p.1, p.2)

def hexVal (c : Char) : Nat :=
  if c.isDigit then c.toNat - 48
  else if 'a' ≤ c ∧ c ≤ 'f' then c.toNat - 87
  else c.toNat - 55

def hexDigitChar (n : Nat) : Char :=
  if n < 10 then Char.ofNat (48 + n) else Char.ofNat (55 + n)

/-- Models Python 2 `urllib.unquote`: `%XX` hex escapes are decoded,
malformed escapes are kept verbatim. -/
def pyUnquote : List Char → List Char
  | '%' :: a :: b :: rest =>
    if pyIsHexDigit a ∧ pyIsHexDigit b then
      Char.ofNat (16 * hexVal a + hexVal b) :: pyUnquote rest
    else '%' :: pyUnquote (a :: b :: rest)
  | c :: rest => c :: pyUnquote rest
  | [] => []

/-- Models Python 2 `urllib.quote(s, safe='/')`: letters, digits,
`_.-` and `/` kept, everything else `%XX` with uppercase hex. -/
def urllib_quote (s : String) : String :=
  ⟨(s.data.map fun c =>
    if c.isAlpha || c.isDigit || c = '_' || c = '.' || c = '-' || c = '/' then [c]
    else ['%', hexDigitChar (c.toNat / 16 % 16), hexDigitChar (c.toNat % 16)]).flatten⟩

/-- Models Python 2 `urlparse.parse_qsl` with default options: split on
`&` and `;`, drop pairs without `=` or with an empty value, decode `+`
and `%XX` in names and values. -/
def parse_qsl (qs : String) : List (String × String) :=
  (((pySplitChar '&' qs.data).map (pySplitChar ';')).flatten).filterMap fun nv =>
    match splitOnceEq nv with
    | none => none
    | some (n, v) =>
      if v.isEmpty then none
      else
        some (⟨pyUnquote (n.map fun c => if c = '+' then ' ' else c)⟩,
              ⟨pyUnquote (v.map fun c => if c = '+' then ' ' else c)⟩)

def qsAppend : List (String × List String) → String → String → List (String × List String)
  | [], k, v => [(k, [v])]
  | (k0, vs) :: rest, k, v =>
    if k0 = k then (k0, vs ++ [v]) :: rest else (k0, vs) :: qsAppend rest k v

/-- Models Python 2 `urlparse.parse_qs`: `parse_qsl` grouped into a dict
of value lists (insertion order). -/
def parse_qs (qs : String) : List (String × List String) :=
  (parse_qsl qs).foldl (fun acc p => qsAppend acc p.1 p.2) []

/-! ## Filter query generation (manager.py lines 289-343) -/

/-- Test for `isinstance(kwargs[key], UUID)`. -/
def isGuidValue : PValue → Bool
  | .guid _ => true
  | _ => false

/-- Python `.isoformat()`; values without the method raise
`AttributeError` (`none`). -/
def pyIsoformat : PValue → Option String
  | .datetime d => some (pyDatetimeIso d)
  | .date d => some (pyDateStr d)
  | _ => none

def WEEKDAY_NAMES : List String := ["Mon", "Tue", "Wed", "Thu", "Fri", "Sat", "Sun"]

def MONTH_NAMES : List String :=
  ["Jan", "Feb", "Mar", "Apr", "May", "Jun", "Jul", "Aug", "Sep", "Oct", "Nov", "Dec"]

/-- Days since 1970-01-01 of a civil date (Howard Hinnant's
`days_from_civil`). -/
def daysFromCivil (y0 : Int) (m d : Nat) : Int :=
  let y := y0 - (if m ≤ 2 then 1 else 0)
  let era := y.ediv 400
  let yoe := (y - era * 400).toNat
  let doy := (153 * (if 2 < m then m - 3 else m + 9) + 2) / 5 + d - 1
  let doe := yoe * 365 + yoe / 4 - yoe / 100 + doy
  era * 146097 + (doe : Int) - 719468

/-- `datetime.strftime('%a, %d %b %Y %H:%M:%S GMT')` (manager.py
line 291). -/
def strftimeGmt (dt : PyDatetime) : String :=
  let wd := ((daysFromCivil (dt.year : Int) dt.month dt.day + 3).emod 7).toNat
  (WEEKDAY_NAMES.getD wd "") ++ ", " ++ pad2 dt.day ++ " "
    ++ (MONTH_NAMES.getD (dt.month - 1) "") ++ " " ++ pad4 dt.year ++ " "
    ++ pad2 dt.hour ++ ":" ++ pad2 dt.minute ++ ":" ++ pad2 dt.second ++ " GMT"

/-- Embedding of `Manager.prepare_filtering_date` (manager.py lines
289-294). -/
def prepare_filtering_date (val : PValue) : List (String × String) :=
  match val with
  | .datetime d => [("If-Modified-Since", strftimeGmt d)]
  | v => [("If-Modified-Since", "\"" ++ pyStr v ++ "\"")]

/-- Embedding of the closure `get_filter_params` (manager.py lines
306-314); the enclosing comprehension variable `key` and `kwargs[key]`
are passed explicitly. -/
def get_filter_params (key : String) (value : PValue) : Option String :=
  if key ∈ BOOLEAN_FIELDS then some (if pyTruthy value then "true" else "false")
  else if key ∈ DATETIME_FIELDS then pyIsoformat value
  else if key ∈ GUID_FIELDS ∨ pyEndsWith key "ID" ∨ isGuidValue value then
    some ("Guid(\"" ++ pyStr value ++ "\")")
  else some ("\"" ++ pyStr value ++ "\"")

/-- Embedding of the closure `generate_param` (manager.py lines
316-330): default rendering `field==literal` with underscores rewritten
to dots; when the name splits on `"__"` into exactly two parts whose
second is (case-sensitively) `contains`, `startswith` or `endswith`, the
rendering is `parts[0].parts[1](literal)`. -/
def generate_param (key : String) (value : PValue) : Option String :=
  let parts := (pySplit2 '_' '_' key.data).map fun l => (⟨l⟩ : String)
  let field := pyReplaceChar '_' '.' key
  match parts with
  | [p0, p1] =>
    if p1 = "contains" ∨ p1 = "startswith" ∨ p1 = "endswith" then
      (get_filter_params key value).map fun lit => p0 ++ "." ++ p1 ++ "(" ++ lit ++ ")"
    else (get_filter_params key value).map fun lit => field ++ "==" ++ lit
  | _ => (get_filter_params key value).map fun lit => field ++ "==" ++ lit

/-! ## Request descriptors and the operations that build them -/

structure RequestDescriptor where
  uri : String
  httpMethod : String
  body : Option (List (String × String))
  headers : Option (List (String × String))
  deriving DecidableEq

/-- Appends `page` to the URI when truthy (manager.py lines 337-341). -/
def addPage (uri : String) (page : Option PValue) : String :=
  match page with
  | some p =>
    if pyTruthy p then
      uri ++ (if uri.data.contains '?' then "&page=" else "?page=") ++ pyStr p
    else uri
  | none => uri

/-- Embedding of `Manager.filter` (manager.py lines 296-343).  `none`
models an uncaught exception from a constraint value without the method
its field class requires. -/
def Manager.filter (url name : String) (kwargs0 : List (String × PValue)) :
    Option RequestDescriptor :=
  let page := kwargs0.lookup "page"
  let kwargs := kwargs0.filter fun kv => kv.1 != "page"
  let uri := String.intercalate "/" [url, name]
  if kwargs.isEmpty then some ⟨addPage uri page, "get", none, none⟩
  else
    let headers := (kwargs.lookup "since").map prepare_filtering_date
    let kwargs2 := kwargs.filter fun kv => kv.1 != "since"
    (kwargs2.mapM fun kv => generate_param kv.1 kv.2).map fun params =>
      let uri2 :=
        if params.isEmpty then uri
        else uri ++ "?where=" ++ urllib_quote (String.intercalate "&&" params)
      ⟨addPage uri2 page, "get", none, headers⟩

/-- Embedding of `Manager.all` (manager.py lines 345-347): a single
request descriptor for the bare collection URI — no page parameter and
no loop. -/
def Manager.all (url name : String) : RequestDescriptor :=
  ⟨String.intercalate "/" [url, name], "get", none, none⟩

/-- Embedding of `Manager.get` (manager.py lines 274-276). -/
def Manager.get (url name id : String) (headers : Option (List (String × String))) :
    RequestDescriptor :=
  ⟨String.intercalate "/" [url, name, id], "get", none, headers⟩

/-! ## Response classification (manager.py lines 213-272) -/

/-- The transport response as the wrapper consumes it: the status code,
the `content-type` header, the body text, and — modelling the external
`minidom.parseString` at its interface — the parsed root element of the
body, consulted only on the 200/XML path. -/
structure XResponse where
  status : Nat
  contentType : String
  text : String
  dom : Elem

/-- The error taxonomy of `xero.exceptions` as raised by the wrapper.
`multipleObjects` is the bare `Exception('Multiple objects returned')`
of line 237; `pyError` models any other uncaught Python exception on the
decode path. -/
inductive XeroError where
  | badRequest (r : XResponse)
  | unauthorized (r : XResponse)
  | forbidden (r : XResponse)
  | notFound (r : XResponse)
  | internalError (r : XResponse)
  | notImplemented (r : XResponse)
  | rateLimitExceeded (r : XResponse) (payload : List (String × List String))
  | notAvailable (r : XResponse)
  | exceptionUnknown (r : XResponse)
  | multipleObjects
  | pyError

/-- Python `m.get(k, default)` on the embedded dict. -/
def pyGetD (m : List (String × PValue)) (k : String) (dflt : PValue) : PValue :=
  (m.lookup k).getD dflt

/-- Embedding of `Manager._get_results` (manager.py lines 197-210):
unwrap the `Response` envelope, descend into `name + "s"` when that key
exists, look up `name` with default `{}`, and unwrap a `singular`-keyed
dict.  `none` models `KeyError`/`TypeError`/`AttributeError` on
non-dict shapes. -/
def get_results (name singularName : String) (data : PValue) : Option PValue :=
  match data with
  | .map m =>
    match m.lookup "Response" with
    | none => none
    | some response =>
      match response with
      | .map rm =>
        let response2 := (rm.lookup (name ++ "s")).getD (.map rm)
        match response2 with
        | .map rm2 =>
          let result := pyGetD rm2 name (.map [])
          match result with
          | .map resm => some ((resm.lookup singularName).getD (.map resm))
          | r => some r
        | _ => none
      | _ => none
  | _ => none

/-- The `name == 'get'` unwrapping (manager.py lines 231-237): an empty
list becomes `{}`, a one-element list its sole element, a longer list
raises `Exception('Multiple objects returned')`, anything else passes
through. -/
def get_unwrap : PValue → Except XeroError PValue
  | .list [] => .ok (.map [])
  | .list [x] => .ok x
  | .list _ => .error .multipleObjects
  | r => .ok r

/-- Embedding of the response handling in `Manager._get_data.wrapper`
(manager.py lines 223-270), from the transport response to the returned
value or raised error. -/
def wrapper (name singularName opName : String) (response : XResponse) :
    Except XeroError PValue :=
  if response.status = 200 then
    if response.contentType = "application/pdf" then .ok (.str response.text)
    else
      match convert_to_dict (walk_document response.dom) with
      | none => .error .pyError
      | some data =>
        match get_results name singularName data with
        | none => .error .pyError
        | some results =>
          if opName = "get" then get_unwrap results else .ok results
  else if response.status = 400 then .error (.badRequest response)
  else if response.status = 401 then .error (.unauthorized response)
  else if response.status = 403 then .error (.forbidden response)
  else if response.status = 404 then .error (.notFound response)
  else if response.status = 500 then .error (.internalError response)
  else if response.status = 501 then .error (.notImplemented response)
  else if response.status = 503 then
    let payload := parse_qs response.text
    if !payload.isEmpty then .error (.rateLimitExceeded response payload)
    else .error (.notAvailable response)
  else .error (.exceptionUnknown response)

/-- The request as handed to `requests.<method>` after the body
preparation of lines 216-220. -/
structure SentRequest where
  uri : String
  httpMethod : String
  body : Option String
  headers : Option (List (String × String))
  deriving DecidableEq

def hdrSet : List (String × String) → String → String → List (String × String)
  | [], k, v => [(k, v)]
  | (k0, v0) :: rest, k, v =>
    if k0 = k then (k0, v) :: rest else (k0, v0) :: hdrSet rest k v

/-- Embedding of the body preparation (manager.py lines 216-220): a
truthy dict body holding an `xml` key becomes that string with a
`Content-Type: application/xml` header.  (A dict body without `xml`
would be form-encoded by `requests`; no manager method builds one.) -/
def prepare_request (d : RequestDescriptor) : SentRequest :=
  match d.body with
  | some bodyDict =>
    if !bodyDict.isEmpty && (bodyDict.lookup "xml").isSome then
      { uri := d.uri, httpMethod := d.httpMethod,
        body := bodyDict.lookup "xml",
        headers := some (hdrSet (d.headers.getD []) "Content-Type" "application/xml") }
    else ⟨d.uri, d.httpMethod, none, d.headers⟩
  | none => ⟨d.uri, d.httpMethod, none, d.headers⟩

/-- One full operation run: the wrapper body performs exactly one
transport call (`requests.<method>` at manager.py line 221) and then
classifies its response; the second component logs the requests issued,
in order. -/
def runOp (d : RequestDescriptor) (name singularName opName : String)
    (transport : SentRequest → XResponse) :
    Except XeroError PValue × List SentRequest :=
  let sent := prepare_request d
  (wrapper name singularName opName (transport sent), [sent])

/-! ## Shape predicates for the rejection property of the literal parser
(spec §4.1 and §8; exercised by `test_only_exact_matches`) -/

/-- The input starts with whitespace. -/
def leading_ws (s : String) : Bool :=
  match s.data.head? with
  | some c => pyIsSpace c
  | none => false

/-- The input ends with whitespace. -/
def trailing_ws (s : String) : Bool :=
  match s.data.getLast? with
  | some c => pyIsSpace c
  | none => false

/-- The input carries a trailing `Z` timezone letter. -/
def trailing_Z (s : String) : Bool :=
  s.data.getLast? = some 'Z'

/-- The input uses a space where the ISO grammar demands `T` (any
accepted literal is space-free, so containing a space suffices). -/
def space_for_T (s : String) : Bool :=
  s.data.contains ' '

/-- The input has the ISO shape with the seconds field missing:
`YYYY-MM-DDTHH:MM` exactly. -/
def missing_seconds (s : String) : Bool :=
  match s.data with
  | [y1, y2, y3, y4, a1, m1, m2, a2, d1, d2, a3, h1, h2, a4, n1, n2] =>
    [y1, y2, y3, y4, m1, m2, d1, d2, h1, h2, n1, n2].all Char.isDigit
      && a1 = '-' && a2 = '-' && a3 = 'T' && a4 = ':'
  | _ => false

/-- Modelled from the spec (§3): the spec's singular form strips a
trailing `s` and then applies the irregular-plural exceptions table.
Declared only to compare the spec's wording against the code's
`singular`, which never consults the table. -/
def singular_spec (word : String) : String :=
  (PLURAL_EXCEPTIONS.lookup (singular word)).getD (singular word)

/-! ## Theorems

Helper lemmas first, then one theorem per claim (with witnesses and
counterexamples where the claim status requires them). -/

theorem stripHead_some : ∀ {p l rest : List Char}, stripHead p l = some rest → l = p ++ rest
  | [], l, rest, h => by simpa [stripHead] using Option.some.inj h
  | p :: ps, c :: cs, rest, h => by
    unfold stripHead at h
    split at h
    · next heq => simpa [heq] using stripHead_some h
    · exact absurd h (by simp)

theorem stripHead_append (p l : List Char) : stripHead p (p ++ l) = some l := by
  induction p with
  | nil => rfl
  | cons c cs ih => simp [stripHead, ih]

theorem takeWhile_append_all {p : Char → Bool} :
    ∀ {ds : List Char} {c : Char} {t : List Char}, (∀ x ∈ ds, p x = true) → p c = false →
      (ds ++ c :: t).takeWhile p = ds ∧ (ds ++ c :: t).dropWhile p = c :: t := by
  intro ds
  induction ds with
  | nil => intro c t _ hc; simp [List.takeWhile, List.dropWhile, hc]
  | cons d ds ih =>
    intro c t hall hc
    have hd : p d = true := hall d (by simp)
    have h2 := @ih c t (fun x hx => hall x (by simp [hx])) hc
    simp [List.takeWhile, List.dropWhile, hd, h2.1, h2.2]

theorem digit_not_space {c : Char} (h : c.isDigit = true) : pyIsSpace c = false := by
  revert h
  simp only [Char.isDigit, pyIsSpace]
  intro h
  simp only [Bool.or_eq_false_iff]
  refine ⟨⟨⟨⟨⟨?_, ?_⟩, ?_⟩, ?_⟩, ?_⟩, ?_⟩ <;>
    · simp only [decide_eq_false_iff_not]
      intro hh
      subst hh
      simp_all

theorem getLast?_append_right : ∀ (l1 l2 : List Char), l2 ≠ [] → (l1 ++ l2).getLast? = l2.getLast? := by
  intro l1 l2 h
  induction l1 with
  | nil => rfl
  | cons a l1 ih =>
    cases hl : l1 ++ l2 with
    | nil => exact absurd (List.append_eq_nil.mp hl).2 h
    | cons b t => rw [List.cons_append, hl, List.getLast?_cons_cons, ← hl, ih]

set_option maxRecDepth 4096 in
theorem parse_iso_list_inv {l : List Char} {r : PDResult} (h : parse_iso_list l = some r) :
    l.length = 19 ∧ (∀ c ∈ l, c.isDigit = true ∨ c = '-' ∨ c = 'T' ∨ c = ':')
      ∧ (∃ c, l.getLast? = some c ∧ c.isDigit = true)
      ∧ (∃ c, l.head? = some c ∧ c.isDigit = true) := by
  unfold parse_iso_list at h
  split at h
  · next y1 y2 y3 y4 a1 m1 m2 a2 d1 d2 a3 h1 h2 a4 n1 n2 a5 x1 x2 =>
    split at h
    · next hcond =>
      obtain ⟨hdig, ha1, ha2, ha3, ha4, ha5⟩ := hcond
      subst ha1 ha2 ha3 ha4 ha5
      have hdig' : ∀ x ∈ [y1, y2, y3, y4, m1, m2, d1, d2, h1, h2, n1, n2, x1, x2],
          x.isDigit = true := by simpa using hdig
      have hy1 := hdig' y1 (by simp); have hy2 := hdig' y2 (by simp)
      have hy3 := hdig' y3 (by simp); have hy4 := hdig' y4 (by simp)
      have hm1 := hdig' m1 (by simp); have hm2 := hdig' m2 (by simp)
      have hd1 := hdig' d1 (by simp); have hd2 := hdig' d2 (by simp)
      have hh1 := hdig' h1 (by simp); have hh2 := hdig' h2 (by simp)
      have hn1 := hdig' n1 (by simp); have hn2 := hdig' n2 (by simp)
      have hx1 := hdig' x1 (by simp); have hx2 := hdig' x2 (by simp)
      refine ⟨rfl, ?_, ⟨x2, rfl, hx2⟩, ⟨y1, rfl, hy1⟩⟩
      intro c hc
      simp only [List.mem_cons, List.not_mem_nil, or_false] at hc
      rcases hc with h0|h0|h0|h0|h0|h0|h0|h0|h0|h0|h0|h0|h0|h0|h0|h0|h0|h0|h0 <;>
        subst h0 <;>
        first
          | exact Or.inl (by assumption)
          | exact Or.inr (Or.inl rfl)
          | exact Or.inr (Or.inr (Or.inl rfl))
          | exact Or.inr (Or.inr (Or.inr rfl))
    · exact absurd h (by simp)
  · exact absurd h (by simp)

theorem mem_msLitHead {c : Char} (hc : c ∈ msLitHead) :
    c ∈ ['/', 'D', 'a', 't', 'e', '(', ')', '+', '-'] := by
  simp only [msLitHead, List.mem_cons, List.not_mem_nil, or_false] at hc
  rcases hc with rfl|rfl|rfl|rfl|rfl|rfl <;> decide

theorem parse_ms_list_inv {l : List Char} {r : PDResult} (h : parse_ms_list l = some r) :
    l.head? = some '/' ∧ l.getLast? = some '/'
      ∧ ∀ c ∈ l, c.isDigit = true ∨ c ∈ ['/', 'D', 'a', 't', 'e', '(', ')', '+', '-'] := by
  unfold parse_ms_list at h
  split at h
  · exact absurd h (by simp)
  · next rest heq =>
    have hl : l = msLitHead ++ rest := stripHead_some heq
    subst hl
    have hrest : rest.takeWhile Char.isDigit ++ rest.dropWhile Char.isDigit = rest :=
      List.takeWhile_append_dropWhile Char.isDigit rest
    dsimp only at h
    split at h
    · exact absurd h (by simp)
    · split at h
      · next hds heqtl =>
        refine ⟨rfl, ?_, ?_⟩
        · rw [← hrest, heqtl, ← List.append_assoc,
            getLast?_append_right _ _ (by simp)]
          rfl
        · intro c hc
          rw [← hrest, heqtl] at hc
          rcases List.mem_append.mp hc with hc | hc
          · exact Or.inr (mem_msLitHead hc)
          rcases List.mem_append.mp hc with hc | hc
          · exact Or.inl (List.mem_takeWhile_imp hc)
          · simp only [List.mem_cons, List.not_mem_nil, or_false] at hc
            rcases hc with rfl | rfl <;> exact Or.inr (by decide)
      · next hds sg o1 o2 o3 o4 heqtl =>
        split at h
        · next hcond =>
          obtain ⟨hsg, hodig⟩ := hcond
          have hodig' : ∀ x ∈ [o1, o2, o3, o4], x.isDigit = true := by simpa using hodig
          refine ⟨rfl, ?_, ?_⟩
          · rw [← hrest, heqtl, ← List.append_assoc,
              getLast?_append_right _ _ (by simp)]
            rfl
          · intro c hc
            rw [← hrest, heqtl] at hc
            rcases List.mem_append.mp hc with hc | hc
            · exact Or.inr (mem_msLitHead hc)
            rcases List.mem_append.mp hc with hc | hc
            · exact Or.inl (List.mem_takeWhile_imp hc)
            · simp only [List.mem_cons, List.not_mem_nil, or_false] at hc
              rcases hc with rfl | rfl | rfl | rfl | rfl | rfl | rfl
              · rcases hsg with rfl | rfl <;> exact Or.inr (by decide)
              · exact Or.inl (hodig' _ (by simp))
              · exact Or.inl (hodig' _ (by simp))
              · exact Or.inl (hodig' _ (by simp))
              · exact Or.inl (hodig' _ (by simp))
              · exact Or.inr (by decide)
              · exact Or.inr (by decide)
        · exact absurd h (by simp)
      · exact absurd h (by simp)


theorem mem_of_head_eq {l : List Char} {c : Char} (h : l.head? = some c) : c ∈ l := by
  cases l with
  | nil => exact absurd h (by simp)
  | cons a t => simp_all

theorem mem_of_getLast_eq {l : List Char} {c : Char} (h : l.getLast? = some c) : c ∈ l := by
  induction l with
  | nil => exact absurd h (by simp)
  | cons a t ih =>
    cases t with
    | nil => simp_all
    | cons b t2 =>
      rw [List.getLast?_cons_cons] at h
      exact List.mem_cons_of_mem a (ih h)

theorem sep_not_space : pyIsSpace '-' = false ∧ pyIsSpace 'T' = false ∧ pyIsSpace ':' = false := by
  decide

theorem parse_date_some_shape {s : String} {r : PDResult} (h : parse_date s = some r) :
    (∀ c ∈ s.data, pyIsSpace c = false)
    ∧ (∃ c, s.data.getLast? = some c ∧ c ≠ 'Z')
    ∧ (s.data.length = 19 ∨ s.data.head? = some '/') := by
  unfold parse_date at h
  cases hiso : parse_iso s with
  | some r2 =>
    have hiso' : parse_iso_list s.data = some r2 := hiso
    obtain ⟨hlen, hchars, ⟨cl, hcl, hcldig⟩, -⟩ := parse_iso_list_inv hiso'
    refine ⟨?_, ⟨cl, hcl, ?_⟩, Or.inl hlen⟩
    · intro c hc
      rcases hchars c hc with hd | rfl | rfl | rfl
      · exact digit_not_space hd
      · exact sep_not_space.1
      · exact sep_not_space.2.1
      · exact sep_not_space.2.2
    · intro hz
      subst hz
      exact absurd hcldig (by decide)
  | none =>
    rw [hiso] at h
    have hms : parse_ms_list s.data = some r := h
    obtain ⟨hhead, hlast, hchars⟩ := parse_ms_list_inv hms
    refine ⟨?_, ⟨'/', hlast, by decide⟩, Or.inr hhead⟩
    intro c hc
    rcases hchars c hc with hd | hmem
    · exact digit_not_space hd
    · simp only [List.mem_cons, List.not_mem_nil, or_false] at hmem
      rcases hmem with rfl|rfl|rfl|rfl|rfl|rfl|rfl|rfl|rfl <;> decide

/-- C4: every input to the date/time literal parser that has leading or
trailing whitespace, a trailing `Z`, a space instead of `T`, or a
missing seconds field yields no match (`none`) — not an error and not a
partial parse. -/
theorem c4_parse_date_rejects_nonexact (s : String)
    (h : leading_ws s = true ∨ trailing_ws s = true ∨ trailing_Z s = true
       ∨ space_for_T s = true ∨ missing_seconds s = true) :
    parse_date s = none := by
  cases hpd : parse_date s with
  | none => rfl
  | some r =>
    exfalso
    obtain ⟨hns, ⟨cz, hcz, hczne⟩, hshape⟩ := parse_date_some_shape hpd
    rcases h with h | h | h | h | h
    · unfold leading_ws at h
      split at h
      · next c hc => exact absurd (hns c (mem_of_head_eq hc)) (by simp [h])
      · exact absurd h (by simp)
    · unfold trailing_ws at h
      split at h
      · next c hc => exact absurd (hns c (mem_of_getLast_eq hc)) (by simp [h])
      · exact absurd h (by simp)
    · unfold trailing_Z at h
      rw [decide_eq_true_iff] at h
      rw [h] at hcz
      exact hczne (Option.some.inj hcz).symm
    · unfold space_for_T at h
      have hmem : ' ' ∈ s.data := by
        simpa [List.contains] using h
      exact absurd (hns ' ' hmem) (by decide)
    · unfold missing_seconds at h
      split at h
      · next y1 y2 y3 y4 a1 m1 m2 a2 d1 d2 a3 h1 h2 a4 n1 n2 heq =>
        have hdig : y1.isDigit = true := by
          have := (Bool.and_eq_true _ _).mp h
          have := (Bool.and_eq_true _ _).mp this.1
          have := (Bool.and_eq_true _ _).mp this.1
          have := (Bool.and_eq_true _ _).mp this.1
          simpa using ((List.all_eq_true.mp this.1) y1 (by simp))
        rcases hshape with hlen | hhd
        · rw [heq] at hlen
          simp at hlen
        · rw [heq] at hhd
          simp only [List.head?_cons, Option.some.injEq] at hhd
          subst hhd
          exact absurd hdig (by decide)
      · exact absurd h (by simp)

theorem parse_iso_list_msLitHead {rest : List Char} :
    parse_iso_list (msLitHead ++ rest) = none := by
  have hform : msLitHead ++ rest = '/' :: 'D' :: 'a' :: 't' :: 'e' :: '(' :: rest := rfl
  rw [hform]
  unfold parse_iso_list
  split
  · next y1 y2 y3 y4 a1 m1 m2 a2 d1 d2 a3 h1 h2 a4 n1 n2 a5 x1 x2 heq =>
    injection heq with h1 h2
    subst h1
    split
    · next hcond =>
      have hd : Char.isDigit '/' = true := by
        simpa using (List.all_eq_true.mp hcond.1 '/' (by simp))
      exact absurd hd (by decide)
    · rfl
  · rfl

theorem isEmpty_false_of_ne {ds : List Char} (h : ds ≠ []) : ds.isEmpty = false := by
  cases ds with
  | nil => exact absurd rfl h
  | cons a t => rfl

theorem parse_ms_list_plain {ds : List Char} (hne : ds ≠ [])
    (hdig : ∀ c ∈ ds, c.isDigit = true) :
    parse_ms_list (msLitHead ++ (ds ++ [')', '/'])) =
      some (.datetime (msdt (digitsToNat ds : Int))) := by
  obtain ⟨htw, hdw⟩ := @takeWhile_append_all Char.isDigit ds ')' ['/'] hdig (by decide)
  unfold parse_ms_list
  rw [stripHead_append]
  dsimp only
  rw [htw, hdw, isEmpty_false_of_ne hne]
  rfl

theorem parse_ms_list_offset {ds : List Char} {sg o1 o2 o3 o4 : Char} (hne : ds ≠ [])
    (hdig : ∀ c ∈ ds, c.isDigit = true) (hsg : sg = '+' ∨ sg = '-')
    (hodig : [o1, o2, o3, o4].all Char.isDigit = true) :
    parse_ms_list (msLitHead ++ (ds ++ [sg, o1, o2, o3, o4, ')', '/'])) =
      some (.datetime (msdt ((digitsToNat ds : Int) +
        (if sg = '+' then ((digitsToNat [o1, o2] * 60 + digitsToNat [o3, o4] : Nat) : Int)
         else -((digitsToNat [o1, o2] * 60 + digitsToNat [o3, o4] : Nat) : Int)) * 60000))) := by
  have hsgd : Char.isDigit sg = false := by
    rcases hsg with rfl | rfl <;> decide
  obtain ⟨htw, hdw⟩ :=
    @takeWhile_append_all Char.isDigit ds sg [o1, o2, o3, o4, ')', '/'] hdig hsgd
  unfold parse_ms_list
  rw [stripHead_append]
  dsimp only
  rw [htw, hdw, isEmpty_false_of_ne hne]
  simp only [Bool.false_eq_true, if_false]
  rw [if_pos ⟨hsg, hodig⟩]

/-- C5: every literal `/Date(<millis>[<sign><HH><MM>])/` parses to the
UTC instant of the epoch milliseconds with the signed offset added, as a
naive date-time; in particular the three documented examples. -/
theorem c5_ms_literal_parses :
    (∀ ds : List Char, ds ≠ [] → (∀ c ∈ ds, c.isDigit = true) →
      parse_date ⟨msLitHead ++ (ds ++ [')', '/'])⟩
        = some (.datetime (msdt (digitsToNat ds : Int))))
    ∧ (∀ (ds : List Char) (sg o1 o2 o3 o4 : Char), ds ≠ [] → (∀ c ∈ ds, c.isDigit = true) →
        (sg = '+' ∨ sg = '-') → [o1, o2, o3, o4].all Char.isDigit = true →
        parse_date ⟨msLitHead ++ (ds ++ [sg, o1, o2, o3, o4, ')', '/'])⟩
          = some (.datetime (msdt ((digitsToNat ds : Int) +
              (if sg = '+' then ((digitsToNat [o1, o2] * 60 + digitsToNat [o3, o4] : Nat) : Int)
               else -((digitsToNat [o1, o2] * 60 + digitsToNat [o3, o4] : Nat) : Int)) * 60000))))
    ∧ parse_date "/Date(1376543055997)/" = some (.datetime ⟨2013, 8, 15, 5, 4, 15, 997000⟩)
    ∧ parse_date "/Date(1376543055997+1200)/" = some (.datetime ⟨2013, 8, 15, 17, 4, 15, 997000⟩)
    ∧ parse_date "/Date(1376543055997-0300)/" = some (.datetime ⟨2013, 8, 15, 2, 4, 15, 997000⟩) := by
  refine ⟨?_, ?_, rfl, rfl, rfl⟩
  · intro ds hne hdig
    unfold parse_date
    have h1 : parse_iso ⟨msLitHead ++ (ds ++ [')', '/'])⟩ = none := parse_iso_list_msLitHead
    rw [h1]
    exact parse_ms_list_plain hne hdig
  · intro ds sg o1 o2 o3 o4 hne hdig hsg hodig
    unfold parse_date
    have h1 : parse_iso ⟨msLitHead ++ (ds ++ [sg, o1, o2, o3, o4, ')', '/'])⟩ = none :=
      parse_iso_list_msLitHead
    rw [h1]
    exact parse_ms_list_offset hne hdig hsg hodig

/-- Witness for C5 at concrete literals. -/
theorem c5_ms_literal_parses_witness :
    parse_date "/Date(1)/" = some (.datetime ⟨1970, 1, 1, 0, 0, 0, 1000⟩)
    ∧ parse_date "/Date(0+0130)/" = some (.datetime ⟨1970, 1, 1, 1, 30, 0, 0⟩) :=
  ⟨(c5_ms_literal_parses.1 ['1'] (by decide) (by decide)).trans rfl,
   (c5_ms_literal_parses.2.1 ['0'] '+' '0' '1' '3' '0' (by decide) (by decide)
      (Or.inl rfl) (by decide)).trans rfl⟩

/-- Witness for C4 at the five rejected strings of
`test_only_exact_matches`. -/
theorem c4_parse_date_rejects_nonexact_witness :
    parse_date " 2001-01-01T00:30:00" = none
    ∧ parse_date "2001-01-01T00:30:00 " = none
    ∧ parse_date "2001-01-01T00:30:00Z" = none
    ∧ parse_date "2001-01-01 00:30:00" = none
    ∧ parse_date "2001-01-01T00:30" = none :=
  ⟨c4_parse_date_rejects_nonexact _ (Or.inl (by decide)),
   c4_parse_date_rejects_nonexact _ (Or.inr (Or.inl (by decide))),
   c4_parse_date_rejects_nonexact _ (Or.inr (Or.inr (Or.inl (by decide)))),
   c4_parse_date_rejects_nonexact _ (Or.inr (Or.inr (Or.inr (Or.inl (by decide))))),
   c4_parse_date_rejects_nonexact _ (Or.inr (Or.inr (Or.inr (Or.inr (by decide)))))⟩

/-- C9 (counterexample): `singular` does not apply the irregular-plural
exceptions table (`singular "Addresse" = "Addresse"`, not `"Address"`),
and it is not idempotent (`singular (singular "Boss") ≠ singular "Boss"`).
-/
theorem c9_singular_not_as_claimed :
    singular "Addresse" = "Addresse" ∧ "Addresse" ≠ "Address"
      ∧ singular (singular "Boss") ≠ singular "Boss" := by
  refine ⟨rfl, by decide, by decide⟩

/-- C9 (amended): `singular` is deterministic and strips one trailing
`s`/`S`; it never consults the exceptions table (`Addresse` stays
`Addresse`; only the encoder applies the table); it is idempotent
exactly on words whose stripped form does not itself end in `s`, so
`Boss` strips twice. -/
theorem c9_singular_amended :
    (∀ w : String, isplural (singular w) = false → singular (singular w) = singular w)
    ∧ singular "Invoices" = "Invoice" ∧ singular "Addresse" = "Addresse"
    ∧ singular "Boss" = "Bos" := by
  refine ⟨?_, rfl, rfl, by decide⟩
  intro w h
  have hx : singular (singular w) =
      if isplural (singular w) then (singular w).dropRight 1 else singular w := rfl
  rw [hx, h]
  simp

/-- Witness for C9 at `Invoices`. -/
theorem c9_singular_amended_witness :
    singular (singular "Invoices") = singular "Invoices" :=
  c9_singular_amended.1 "Invoices" (by decide)

/-- C1: evaluation of the round trip at the failing input
`{"Addresses": [{"City": "X"}]}`.  The encoder names the wrapped
children `Address` via `PLURAL_EXCEPTIONS`, but the decoder's plural
collapse compares against the exception-free `singular "Addresses" =
"Addresse"`, so decoding the re-encoded record yields a nested mapping
instead of the original one-element list. -/
theorem c1_roundtrip_fails_on_addresses :
    convert_to_dict (walk_dom (dict_to_xml (Elem.mk "Contact" none [])
        (PValue.map [("Addresses", PValue.list [PValue.map [("City", PValue.str "X")]])])))
      = some (PValue.map [("Addresses",
          PValue.map [("Address", PValue.map [("City", PValue.str "X")])])])
    ∧ PValue.map [("Addresses",
          PValue.map [("Address", PValue.map [("City", PValue.str "X")])])]
      ≠ PValue.map [("Addresses", PValue.list [PValue.map [("City", PValue.str "X")]])] := by
  refine ⟨rfl, ?_⟩
  simp

/-- C8 (counterexample): under key `Addresses` a decoded child that is a
mapping whose only key is the spec's singular form `Address` is *not*
replaced by a one-element list — the decoder compares against the
exception-free `Addresse` instead (manager.py line 130). -/
theorem c8_addresses_singleton_not_collapsed :
    singular_spec "Addresses" = "Address"
    ∧ convert_to_dict [DItem.s "Addresses", DItem.t [DItem.s "Address",
        DItem.t [DItem.s "City", DItem.t [DItem.s "X"]]]]
      = some (PValue.map [("Addresses",
          PValue.map [("Address", PValue.map [("City", PValue.str "X")])])])
    ∧ PValue.map [("Address", PValue.map [("City", PValue.str "X")])]
      ≠ PValue.list [PValue.map [("City", PValue.str "X")]] := by
  refine ⟨rfl, rfl, ?_⟩
  simp

/-- C8 (amended): after decoding a child under key K in the two-element
branch, a decoded mapping whose only key equals the exception-free
`singular K` is replaced by the one-element list of its value; with any
other sole key the mapping is kept unchanged. -/
theorem c8_collapse_uses_exceptionfree_singular :
    (∀ (fuel : Nat) (key k : String) (v : PValue) (inner : List DItem),
      cdict fuel inner = some (PValue.map [(k, v)]) → isplural key = true →
      k = singular key →
      cdict (fuel + 1) [DItem.s key, DItem.t inner]
        = some (PValue.map [(key, PValue.list [v])]))
    ∧ (∀ (fuel : Nat) (key k : String) (v : PValue) (inner : List DItem),
      cdict fuel inner = some (PValue.map [(k, v)]) → isplural key = true →
      ¬(k = singular key) →
      cdict (fuel + 1) [DItem.s key, DItem.t inner]
        = some (PValue.map [(key, PValue.map [(k, v)])])) := by
  constructor
  · intro fuel key k v inner hconv hpl hk
    show cdict (fuel + 1) [DItem.s key, DItem.t inner] = _
    rw [cdict]
    simp only [List.length, Nat.reduceAdd]
    rw [hconv]
    simp [collapse_two, hpl, hk]
  · intro fuel key k v inner hconv hpl hk
    rw [cdict]
    simp only [List.length, Nat.reduceAdd]
    rw [hconv]
    simp [collapse_two, hpl, hk]

/-- Witness for C8: a regular plural (`Invoices` wrapping one `Invoice`)
does collapse into a one-element list. -/
theorem c8_collapse_witness :
    cdict (dlistFuel [DItem.s "Invoice", DItem.t [DItem.s "Name", DItem.t [DItem.s "B"]]] + 1)
        [DItem.s "Invoices", DItem.t [DItem.s "Invoice",
          DItem.t [DItem.s "Name", DItem.t [DItem.s "B"]]]]
      = some (PValue.map [("Invoices",
          PValue.list [PValue.map [("Name", PValue.str "B")]])]) :=
  c8_collapse_uses_exceptionfree_singular.1 _ "Invoices" "Invoice"
    (PValue.map [("Name", PValue.str "B")]) _ rfl (by decide) (by decide)

/-- C2: evaluation of the filter-term rendering.  The suffix check of
`generate_param` is case-sensitive against lowercase names, so the
documented `{"Name__Contains": "John"}` does *not* render as
`Name.Contains("John")` (the code's own comment at manager.py lines
321-322 says it should); it falls back to `==` with underscores
rewritten to dots, yielding `Name..Contains=="John"`.  The all-lowercase
suffix, the GUID field and the boolean field render as documented. -/
theorem c2_filter_rendering_eval :
    generate_param "Name__Contains" (PValue.str "John") = some "Name..Contains==\"John\""
    ∧ generate_param "Name__Contains" (PValue.str "John") ≠ some "Name.Contains(\"John\")"
    ∧ generate_param "Name__contains" (PValue.str "John") = some "Name.contains(\"John\")"
    ∧ generate_param "EmployeeID" (PValue.guid "1f5a2c34-9a1b-4c3d-8e6f-0a1b2c3d4e5f")
      = some "EmployeeID==Guid(\"1f5a2c34-9a1b-4c3d-8e6f-0a1b2c3d4e5f\")"
    ∧ generate_param "IsSupplier" (PValue.boolean true) = some "IsSupplier==true" :=
  ⟨rfl, by decide, rfl, rfl, rfl⟩

/-- C3 (counterexample): running the "fetch all" operation issues
exactly one request, to the bare collection URI — not the `?page=1` URI
that the manager's own `filter` builds for page 1 — so no fixed-size
page requests "starting at page 1" are ever issued, whatever the
transport would return. -/
theorem c3_all_issues_no_page_request :
    (runOp (Manager.all "https://api.xero.com/api.xro/2.0" "Invoices")
        "Invoices" "Invoice" "all"
        (fun _ => ⟨200, "application/pdf", "x", Elem.mk "r" none []⟩)).2
      = [⟨"https://api.xero.com/api.xro/2.0/Invoices", "get", none, none⟩]
    ∧ Manager.filter "https://api.xero.com/api.xro/2.0" "Invoices" [("page", PValue.integer 1)]
      = some ⟨"https://api.xero.com/api.xro/2.0/Invoices?page=1", "get", none, none⟩
    ∧ ("https://api.xero.com/api.xro/2.0/Invoices" : String)
      ≠ "https://api.xero.com/api.xro/2.0/Invoices?page=1" :=
  ⟨rfl, rfl, by decide⟩

/-- C3 (amended): the "fetch all" operation issues exactly one request,
an unpaginated `GET` of the collection URI with no body and no headers,
and returns that single response's classification — there is no
pagination loop and no page size. -/
theorem c3_all_single_unpaginated_fetch (url name singularName : String)
    (transport : SentRequest → XResponse) :
    (runOp (Manager.all url name) name singularName "all" transport).2
      = [⟨String.intercalate "/" [url, name], "get", none, none⟩]
    ∧ (runOp (Manager.all url name) name singularName "all" transport).1
      = wrapper name singularName "all"
          (transport ⟨String.intercalate "/" [url, name], "get", none, none⟩) :=
  ⟨rfl, rfl⟩

/-- C7 (counterexample): with the `Accept` header set and a transport
that would answer 500 to the original request but 200 to any retry with
different headers, the operation still raises `InternalError` from the
first response and issues exactly one request — there is no retry. -/
theorem c7_no_retry_on_500_with_accept :
    runOp ⟨"u/Invoices/1", "get", none, some [("Accept", "application/json")]⟩
        "Invoices" "Invoice" "get"
        (fun req =>
          if req.headers = some [("Accept", "application/json")] then
            ⟨500, "text/html", "err", Elem.mk "r" none []⟩
          else ⟨200, "application/pdf", "ok", Elem.mk "r" none []⟩)
      = (.error (.internalError ⟨500, "text/html", "err", Elem.mk "r" none []⟩),
         [⟨"u/Invoices/1", "get", none, some [("Accept", "application/json")]⟩]) :=
  rfl

/-- C7 (amended): every operation performs exactly one transport call,
and any 500 response raises `InternalError` immediately, whatever the
headers were; no classifier outcome is ever retried. -/
theorem c7_500_raises_immediately :
    (∀ (d : RequestDescriptor) (name singularName opName : String)
        (transport : SentRequest → XResponse),
      (runOp d name singularName opName transport).2.length = 1)
    ∧ (∀ (name singularName opName : String) (resp : XResponse), resp.status = 500 →
        wrapper name singularName opName resp = .error (.internalError resp)) := by
  constructor
  · intro d n s o t
    rfl
  · intro n s o resp h
    simp [wrapper, h]

/-- Witness for C7 at a concrete 500 response. -/
theorem c7_500_raises_immediately_witness :
    wrapper "Invoices" "Invoice" "get" ⟨500, "text/html", "err", Elem.mk "r" none []⟩
      = .error (.internalError ⟨500, "text/html", "err", Elem.mk "r" none []⟩) :=
  c7_500_raises_immediately.2 "Invoices" "Invoice" "get" _ rfl

/-- C6: every 503 response has its body parsed as an encoded key/value
payload; a nonempty parse raises `RateLimitExceeded` carrying the
payload, an empty parse raises `ServiceNotAvailable`. -/
theorem c6_status503_classification (name singularName opName : String) (resp : XResponse)
    (h : resp.status = 503) :
    wrapper name singularName opName resp =
      (if (parse_qs resp.text).isEmpty then .error (.notAvailable resp)
       else .error (.rateLimitExceeded resp (parse_qs resp.text))) := by
  cases hq : (parse_qs resp.text).isEmpty <;> simp [wrapper, h, hq]

/-- Witness for C6: a rate-limit body yields `RateLimitExceeded` with
the decoded payload; an empty body yields `ServiceNotAvailable`. -/
theorem c6_status503_classification_witness :
    wrapper "Invoices" "Invoice" "get"
        ⟨503, "text/html",
         "oauth_problem=rate+limit+exceeded&oauth_problem_advice=please+wait",
         Elem.mk "r" none []⟩
      = .error (.rateLimitExceeded
          ⟨503, "text/html",
           "oauth_problem=rate+limit+exceeded&oauth_problem_advice=please+wait",
           Elem.mk "r" none []⟩
          [("oauth_problem", ["rate limit exceeded"]),
           ("oauth_problem_advice", ["please wait"])])
    ∧ wrapper "Invoices" "Invoice" "get" ⟨503, "text/html", "", Elem.mk "r" none []⟩
      = .error (.notAvailable ⟨503, "text/html", "", Elem.mk "r" none []⟩) :=
  ⟨(c6_status503_classification "Invoices" "Invoice" "get" _ rfl).trans rfl,
   (c6_status503_classification "Invoices" "Invoice" "get" _ rfl).trans rfl⟩

/-- C10: on a 200 response whose decoded payload resolves to a list, the
`get` operation returns `{}` for an empty list and the sole element
unwrapped for a one-element list, raising no error in either case. -/
theorem c10_get_unwraps_list :
    (∀ (name singularName : String) (resp : XResponse) (data results : PValue),
      resp.status = 200 → ¬(resp.contentType = "application/pdf") →
      convert_to_dict (walk_document resp.dom) = some data →
      get_results name singularName data = some results →
      wrapper name singularName "get" resp = get_unwrap results)
    ∧ get_unwrap (PValue.list []) = .ok (PValue.map [])
    ∧ (∀ x : PValue, get_unwrap (PValue.list [x]) = .ok x) := by
  refine ⟨?_, rfl, fun x => rfl⟩
  intro n s resp data results h200 hct hconv hres
  simp [wrapper, h200, hct, hconv, hres]

/-- Witness for C10: a one-element `Invoices` response unwraps to the
sole invoice. -/
theorem c10_get_unwraps_list_witness :
    wrapper "Invoices" "Invoice" "get"
        ⟨200, "text/xml", "", Elem.mk "Response" none [Elem.mk "Invoices" none
          [Elem.mk "Invoice" none [Elem.mk "Name" (some "Bob") []]]]⟩
      = .ok (PValue.map [("Name", PValue.str "Bob")]) :=
  (c10_get_unwraps_list.1 "Invoices" "Invoice"
    ⟨200, "text/xml", "", Elem.mk "Response" none [Elem.mk "Invoices" none
      [Elem.mk "Invoice" none [Elem.mk "Name" (some "Bob") []]]]⟩
    (PValue.map [("Response", PValue.map [("Invoices",
      PValue.list [PValue.map [("Name", PValue.str "Bob")]])])])
    (PValue.list [PValue.map [("Name", PValue.str "Bob")]])
    rfl (by decide) rfl rfl).trans rfl
